import Mathlib

/-!
Shallow embedding of the computational core of the `programmable-ships`
repository: the live physics tick (`kinimatics_system`, src/physics.rs),
the trajectory projection and marker-pool reconciliation
(`course_projection_system`, src/user_interface.rs), and the propulsion
data model (src/ships.rs).

Scalars are modelled as real numbers (the game computes with `f32`); the
glam/bevy vector and quaternion operations are translated field by field.
Code that can panic (`.expect("0 forces")`, out-of-bounds `Vec` indexing)
is embedded as an `Option`-valued function, with `none` standing for the
panic.  Bevy `Commands` (entity spawn / despawn) are deferred until after
a system finishes; the embedding therefore applies them to the marker
pool only after the body of `course_projection_system` has completed.
-/

noncomputable section

namespace Staws

/-- glam `Vec3` with real-valued components. -/
structure Vec3 where
  x : ℝ
  y : ℝ
  z : ℝ

/-- `Vec3::ZERO`, also the `Default` value. -/
def Vec3.zero : Vec3 := ⟨0, 0, 0⟩

/-- `Vec3::Y`. -/
def Vec3.Y : Vec3 := ⟨0, 1, 0⟩

/-- `Vec3::ONE`. -/
def Vec3.ONE : Vec3 := ⟨1, 1, 1⟩

instance : Inhabited Vec3 := ⟨Vec3.zero⟩

/-- Componentwise vector addition. -/
def Vec3.add (a b : Vec3) : Vec3 := ⟨a.x + b.x, a.y + b.y, a.z + b.z⟩

/-- Componentwise vector subtraction. -/
def Vec3.sub (a b : Vec3) : Vec3 := ⟨a.x - b.x, a.y - b.y, a.z - b.z⟩

/-- Componentwise negation. -/
def Vec3.neg (a : Vec3) : Vec3 := ⟨-a.x, -a.y, -a.z⟩

/-- `v * s`: vector scaled by a scalar on the right. -/
def Vec3.smul (a : Vec3) (s : ℝ) : Vec3 := ⟨a.x * s, a.y * s, a.z * s⟩

/-- `v / s`: vector divided by a scalar. -/
def Vec3.sdiv (a : Vec3) (s : ℝ) : Vec3 := ⟨a.x / s, a.y / s, a.z / s⟩

/-- glam `Vec3::dot`. -/
def Vec3.dot (a b : Vec3) : ℝ := a.x * b.x + a.y * b.y + a.z * b.z

/-- glam `Vec3::cross`. -/
def Vec3.cross (a b : Vec3) : Vec3 :=
  ⟨a.y * b.z - a.z * b.y, a.z * b.x - a.x * b.z, a.x * b.y - a.y * b.x⟩

/-- glam `Vec3::length_squared` = `dot(self, self)`. -/
def Vec3.length_squared (a : Vec3) : ℝ := a.x * a.x + a.y * a.y + a.z * a.z

/-- glam `Vec3::length`. -/
def Vec3.length (a : Vec3) : ℝ := Real.sqrt a.length_squared

/-- glam `Vec3::normalize` = `self * (1 / length)`.  The float code yields
NaN components for the zero vector; in this real-valued model the
convention `1 / 0 = 0` makes it the zero vector, and the float partiality
is tracked separately by `checked_normalize`. -/
def Vec3.normalize (a : Vec3) : Vec3 := a.smul (1 / a.length)

/-- glam `Vec3::distance_squared` = `(self - other).length_squared()`. -/
def Vec3.distance_squared (a b : Vec3) : ℝ := (a.sub b).length_squared

/-- glam `Quat` (x, y, z, w). -/
structure Quat where
  x : ℝ
  y : ℝ
  z : ℝ
  w : ℝ

/-- `Quat::IDENTITY`, also the `Default` value. -/
def Quat.IDENTITY : Quat := ⟨0, 0, 0, 1⟩

instance : Inhabited Quat := ⟨Quat.IDENTITY⟩

/-- glam `Quat::mul_vec3`: rotate a vector by a (unit) quaternion. -/
def Quat.mul_vec3 (q : Quat) (v : Vec3) : Vec3 :=
  let b : Vec3 := ⟨q.x, q.y, q.z⟩
  let b2 : ℝ := Vec3.dot b b
  (v.smul (q.w * q.w - b2)).add
    ((b.smul (Vec3.dot v b * 2)).add ((Vec3.cross b v).smul (q.w * 2)))

/-- bevy `Transform` (translation, rotation, scale). -/
structure Transform where
  translation : Vec3
  rotation : Quat
  scale : Vec3

/-- `Transform::default()`: the identity transform. -/
instance : Inhabited Transform := ⟨⟨Vec3.zero, Quat.IDENTITY, Vec3.ONE⟩⟩

/-- `Throttle` (src/ships.rs): either all on / all off, or a variable
fraction of maximum thrust. -/
inductive Throttle where
  | Fixed (isOn : Bool)
  | Variable (amount : ℝ)

/-- `Throttle::default()` is `Variable(0.0)`. -/
instance : Inhabited Throttle := ⟨Throttle.Variable 0⟩

/-- `Engine` component (src/ships.rs). -/
structure Engine where
  fuel : ℝ
  max_thrust : ℝ
  throttle : Throttle

instance : Inhabited Engine := ⟨⟨0, 0, Throttle.Variable 0⟩⟩

/-- `Kinimatics` component (src/physics.rs). -/
structure Kinimatics where
  velocity : Vec3
  acceleration : Vec3
  mass : ℝ

instance : Inhabited Kinimatics := ⟨⟨Vec3.zero, Vec3.zero, 0⟩⟩

/-- One row of the query `(&mut Kinimatics, &mut Transform, Option<&Engine>)`. -/
abbrev Body : Type := Kinimatics × Transform × Option Engine

/-- `GRAVITATIONAL_CONSTANT` (src/physics.rs line 94). -/
def GRAVITATIONAL_CONSTANT : ℝ := 6.67430e-11

/-- `force_mag` for the pair `(q, o)` (src/physics.rs lines 109-110). -/
def force_mag (q o : Body) : ℝ :=
  GRAVITATIONAL_CONSTANT * (q.1.mass * o.1.mass) /
    Vec3.distance_squared q.2.1.translation o.2.1.translation

/-- `d1` (src/physics.rs line 113): gravitational force pushed onto body `q`,
pointing from `q` toward `o`. -/
def gravD1 (q o : Body) : Vec3 :=
  ((o.2.1.translation.sub q.2.1.translation).normalize).smul (force_mag q o)

/-- `d2` (src/physics.rs line 114): reaction force pushed onto body `o`,
pointing from `o` toward `q`. -/
def gravD2 (q o : Body) : Vec3 :=
  ((q.2.1.translation.sub o.2.1.translation).normalize).smul (force_mag q o)

/-- `all_forces[k].push(v)` on the per-body force lists. -/
def pushAt (af : List (List Vec3)) (k : Nat) (v : Vec3) : List (List Vec3) :=
  af.set k (af.getD k [] ++ [v])

/-- The index pairs visited by the nested gravity loops of
`kinimatics_system` (src/physics.rs lines 100-120), in iteration order:
the outer loop walks `i` over all bodies, the inner loop walks the offset
`j` over `entities.split_at(i + 1).1`, and the partner index is
`i + j + 1`. -/
def visited_pairs (n : Nat) : List (Nat × Nat) :=
  (List.range n).flatMap fun i =>
    (List.range (n - (i + 1))).map fun j => (i, i + j + 1)

/-- The body of the gravity loop for one visited pair `p = (i, k)`
(src/physics.rs lines 107-119): push `d1` onto slot `i` and `d2` onto
slot `k`. -/
def gravity_push (bodies : List Body) (af : List (List Vec3)) (p : Nat × Nat) :
    List (List Vec3) :=
  pushAt
    (pushAt af p.1 (gravD1 (bodies.getD p.1 default) (bodies.getD p.2 default)))
    p.2 (gravD2 (bodies.getD p.1 default) (bodies.getD p.2 default))

/-- The gravity-accumulation phase of `kinimatics_system` (src/physics.rs
lines 83-120): starting from one empty force list per body, the nested
loops run `gravity_push` over every visited pair in iteration order. -/
def gravity_forces (bodies : List Body) : List (List Vec3) :=
  (visited_pairs bodies.length).foldl (gravity_push bodies)
    (List.replicate bodies.length [])

/-- The `match t.throttle` expression of `kinimatics_system`
(src/physics.rs lines 128-132): the scalar thrust magnitude. -/
def throttle_magnitude (t : Engine) : ℝ :=
  match t.throttle with
  | Throttle.Fixed true => t.max_thrust
  | Throttle.Fixed false => 0
  | Throttle.Variable amount => amount * t.max_thrust

/-- Rust `Iterator::reduce(|acc, x| acc + x)`: `none` on an empty list,
otherwise the left fold of addition starting at the first element. -/
def reduceAdd : List Vec3 → Option Vec3
  | [] => none
  | x :: xs => some (xs.foldl Vec3.add x)

/-- The per-body integration step of `kinimatics_system` (src/physics.rs
lines 123-146): push the engine thrust (if any), reduce the force list
(`none` models the `.expect("0 forces")` panic on an empty list), then
update acceleration, velocity and translation in that order. -/
def updateBody (dt : ℝ) (forces0 : List Vec3) (b : Body) : Option Body :=
  let forces : List Vec3 :=
    match b.2.2 with
    | some t => forces0 ++ [(b.2.1.rotation.mul_vec3 Vec3.Y).smul (throttle_magnitude t)]
    | none => forces0
  match reduceAdd forces with
  | none => none
  | some total =>
    let acc := total.sdiv b.1.mass
    let vel := b.1.velocity.add (acc.smul dt)
    let pos := b.2.1.translation.add (vel.smul dt)
    some ({ b.1 with acceleration := acc, velocity := vel },
      ({ b.2.1 with translation := pos }, b.2.2))

/-- The second loop of `kinimatics_system`, applied body by body with the
corresponding accumulated force list; any panic aborts the whole system. -/
def updateAll (dt : ℝ) : List (List Vec3) → List Body → Option (List Body)
  | [], [] => some []
  | fs :: fss, b :: bs =>
    match updateBody dt fs b, updateAll dt fss bs with
    | some b', some bs' => some (b' :: bs')
    | _, _ => none
  | _, _ => none

/-- `kinimatics_system` (src/physics.rs lines 78-147): accumulate gravity
over all pairs from one consistent position snapshot, then integrate every
body.  `none` models a panic. -/
def kinimatics_system (bodies : List Body) (dt : ℝ) : Option (List Body) :=
  updateAll dt (gravity_forces bodies) bodies

/-- `num_seconds` (src/user_interface.rs line 151): look-ahead horizon. -/
def num_seconds : Nat := 5

/-- `step_precision` (src/user_interface.rs line 152): steps per second. -/
def step_precision : Nat := 10

/-- The `for step in 0..num_seconds * step_precision` loop of
`course_projection_system` (src/user_interface.rs lines 167-223).  Each
step repeats, verbatim, the gravity accumulation and integration of
`kinimatics_system` on the cloned entities (the `all_forces[i].clear()`
at the end of each step makes every step start from empty force lists),
then records the updated transform of every body.  Returns the final
clone together with the per-step snapshot lists. -/
def course_steps (dt : ℝ) : Nat → List Body → Option (List Body × List (List Transform))
  | 0, bodies => some (bodies, [])
  | n + 1, bodies =>
    match kinimatics_system bodies dt with
    | none => none
    | some bodies' =>
      match course_steps dt n bodies' with
      | none => none
      | some r => some (r.1, bodies'.map (fun b => b.2.1) :: r.2)

/-- The marker-pool reconciliation branch of `course_projection_system`
(src/user_interface.rs lines 229-249): how many `ProjectionDot` entities
are despawned and how many are spawned, given the current pool size and
the required dot count. -/
def reconcile_counts (available_dots total_dots : Nat) : Nat × Nat :=
  if available_dots > total_dots then (available_dots - total_dots, 0)
  else if available_dots < total_dots then (0, total_dots - available_dots)
  else (0, 0)

/-- The state `course_projection_system` touches: the live bodies (read
through an immutable query) and the transforms of the `ProjectionDot`
marker pool. -/
structure World where
  bodies : List Body
  dots : List Transform

/-- `course_projection_system` (src/user_interface.rs lines 133-256).
The live bodies are cloned once; the clone is stepped
`num_seconds * step_precision` times; the reconciliation issues deferred
despawn/spawn commands; the final loop assigns `steps[i]` to the `i`-th
dot of the query - which still enumerates the pre-command pool, so it
panics (`none`) when the pool is larger than the flattened sequence, and
dots spawned by this invocation only receive `Transform::default()`.
After the system body completes, the deferred commands apply: the first
`despawned` dots are removed and `spawned` default dots appear. -/
def course_projection_system (w : World) : Option World :=
  let entities := w.bodies
  match course_steps (1 / (step_precision : ℝ)) (num_seconds * step_precision) entities with
  | none => none
  | some r =>
    let stepss := r.2
    let total_dots := stepss.length * entities.length
    let available_dots := w.dots.length
    let dcounts := reconcile_counts available_dots total_dots
    let steps := stepss.flatten
    if available_dots ≤ steps.length then
      some { bodies := w.bodies,
             dots := (((List.range available_dots).map fun i => steps.getD i default).drop
                 dcounts.1) ++ List.replicate dcounts.2 default }
    else none

/-- Division with the float partiality made explicit: IEEE division of a
finite non-zero numerator by `0.0` is not a finite real number, which the
model records as `none`. -/
def checked_div (a b : ℝ) : Option ℝ := if b = 0 then none else some (a / b)

/-- Normalization with the float partiality made explicit: glam
`normalize` of the zero vector produces NaN components, recorded `none`. -/
def checked_normalize (v : Vec3) : Option Vec3 :=
  if v.length_squared = 0 then none else some v.normalize

/-- The `d1` computation of the gravity loop (src/physics.rs lines
109-113) with the two float-partial operations - the division by
`distance_squared` and the normalization of the difference vector - made
explicit: `none` records that the float code produces a non-finite/NaN
result there.  No branch of the source inspects the distance before
dividing, so this is the whole policy the code has. -/
def gravD1_checked (q o : Body) : Option Vec3 :=
  (checked_div (GRAVITATIONAL_CONSTANT * (q.1.mass * o.1.mass))
      (Vec3.distance_squared q.2.1.translation o.2.1.translation)).bind fun mag =>
    (checked_normalize (o.2.1.translation.sub q.2.1.translation)).map fun u =>
      u.smul mag

/-- Same as `gravD1_checked` for the reaction force `d2` (line 114). -/
def gravD2_checked (q o : Body) : Option Vec3 :=
  (checked_div (GRAVITATIONAL_CONSTANT * (q.1.mass * o.1.mass))
      (Vec3.distance_squared q.2.1.translation o.2.1.translation)).bind fun mag =>
    (checked_normalize (q.2.1.translation.sub o.2.1.translation)).map fun u =>
      u.smul mag

/-- First body of the concrete two-body scenario of spec section 8 (the
planet pair spawned in src/main.rs): mass `8e15` at `(0, -100, 0)`. -/
def scenarioA : Body :=
  (⟨Vec3.zero, Vec3.zero, 8e15⟩, (⟨⟨0, -100, 0⟩, Quat.IDENTITY, Vec3.ONE⟩, none))

/-- Second body of the concrete scenario: mass `8e15` at `(0, 100, 0)`. -/
def scenarioB : Body :=
  (⟨Vec3.zero, Vec3.zero, 8e15⟩, (⟨⟨0, 100, 0⟩, Quat.IDENTITY, Vec3.ONE⟩, none))

/-- The expected mutual force magnitude of the concrete scenario. -/
def scenarioF : ℝ := 1.067888e17

/-- A stationary ship used by the witnesses: engine present but throttled
to `Fixed(false)`, so every tick leaves it unchanged. -/
def idleShip : Body :=
  (⟨Vec3.zero, Vec3.zero, 100⟩,
   (⟨⟨1, 2, 0⟩, Quat.IDENTITY, Vec3.ONE⟩, some ⟨0, 1000, Throttle.Fixed false⟩))

/-- The sum of a list of force vectors (left fold of `Vec3.add` from
`Vec3.zero`); used to state what `reduce(|acc, x| acc + x)` computes. -/
def vecSum (l : List Vec3) : Vec3 := l.foldl Vec3.add Vec3.zero

/-- The engine thrust term of `kinimatics_system` (src/physics.rs lines
125-134); the zero vector when the body has no propulsion. -/
def thrust_of (b : Body) : Vec3 :=
  match b.2.2 with
  | some t => (b.2.1.rotation.mul_vec3 Vec3.Y).smul (throttle_magnitude t)
  | none => Vec3.zero

theorem Vec3.zero_add (a : Vec3) : Vec3.zero.add a = a := by
  simp [Vec3.zero, Vec3.add]

theorem Vec3.add_zero (a : Vec3) : a.add Vec3.zero = a := by
  simp [Vec3.zero, Vec3.add]

theorem Vec3.neg_smul (a : Vec3) (s : ℝ) : (a.neg).smul s = (a.smul s).neg := by
  simp only [Vec3.neg, Vec3.smul, Vec3.mk.injEq]
  refine ⟨by ring, by ring, by ring⟩

theorem Vec3.sub_eq_neg (a b : Vec3) : a.sub b = (b.sub a).neg := by
  simp only [Vec3.sub, Vec3.neg, Vec3.mk.injEq]
  refine ⟨by ring, by ring, by ring⟩

theorem Vec3.length_squared_neg (a : Vec3) : (a.neg).length_squared = a.length_squared := by
  simp only [Vec3.neg, Vec3.length_squared]
  ring

theorem Vec3.length_squared_eq_zero_iff (v : Vec3) :
    v.length_squared = 0 ↔ v = Vec3.zero := by
  constructor
  · intro h
    simp only [Vec3.length_squared] at h
    have hx : v.x = 0 := by nlinarith [sq_nonneg v.x, sq_nonneg v.y, sq_nonneg v.z]
    have hy : v.y = 0 := by nlinarith [sq_nonneg v.x, sq_nonneg v.y, sq_nonneg v.z]
    have hz : v.z = 0 := by nlinarith [sq_nonneg v.x, sq_nonneg v.y, sq_nonneg v.z]
    cases v
    simp_all [Vec3.zero]
  · intro h
    subst h
    simp [Vec3.zero, Vec3.length_squared]

theorem Vec3.sub_eq_zero_iff (a b : Vec3) : a.sub b = Vec3.zero ↔ a = b := by
  cases a; cases b
  simp only [Vec3.sub, Vec3.zero, Vec3.mk.injEq]
  constructor
  · rintro ⟨h1, h2, h3⟩
    refine ⟨by linarith, by linarith, by linarith⟩
  · rintro ⟨h1, h2, h3⟩
    refine ⟨by linarith, by linarith, by linarith⟩

/-- The reaction force `d2` of the gravity loop is the exact negation of
`d1`: the magnitudes agree and the direction vectors are opposite. -/
theorem gravD2_eq_neg (q o : Body) : gravD2 q o = (gravD1 q o).neg := by
  unfold gravD2 gravD1 Vec3.normalize Vec3.length
  rw [Vec3.sub_eq_neg q.2.1.translation o.2.1.translation, Vec3.length_squared_neg,
    Vec3.neg_smul, Vec3.neg_smul]

/-- Membership in the pair list of the gravity loops: exactly the ordered
index pairs `(i, j)` with `i < j < n`. -/
theorem mem_visited_pairs (n : Nat) (p : Nat × Nat) :
    p ∈ visited_pairs n ↔ p.1 < p.2 ∧ p.2 < n := by
  obtain ⟨a, b⟩ := p
  unfold visited_pairs
  simp only [List.mem_flatMap, List.mem_map, List.mem_range]
  constructor
  · rintro ⟨i, hi, j, hj, hp⟩
    simp only [Prod.mk.injEq] at hp
    omega
  · rintro ⟨h1, h2⟩
    refine ⟨a, by omega, b - a - 1, by omega, ?_⟩
    simp only [Prod.mk.injEq, true_and]
    omega

/-- The gravity loops visit no index pair twice. -/
theorem nodup_visited_pairs (n : Nat) : (visited_pairs n).Nodup := by
  unfold visited_pairs
  rw [List.nodup_flatMap]
  constructor
  · intro i _
    refine List.Nodup.map ?_ (List.nodup_range _)
    intro a b hab
    simpa using hab
  · refine (List.pairwise_lt_range n).imp ?_
    intro a b hab p hpa hpb
    simp only [List.mem_map, List.mem_range] at hpa hpb
    obtain ⟨j, _, rfl⟩ := hpa
    obtain ⟨j', _, hj'⟩ := hpb
    simp only [Prod.mk.injEq] at hj'
    omega

theorem pushAt_length (af : List (List Vec3)) (k : Nat) (v : Vec3) :
    (pushAt af k v).length = af.length := by
  simp [pushAt]

theorem foldl_gravity_push_length (bodies : List Body) (ps : List (Nat × Nat))
    (af : List (List Vec3)) :
    (ps.foldl (gravity_push bodies) af).length = af.length := by
  induction ps generalizing af with
  | nil => rfl
  | cons p ps ih => simp [List.foldl_cons, ih, gravity_push, pushAt_length]

theorem gravity_forces_length (bodies : List Body) :
    (gravity_forces bodies).length = bodies.length := by
  unfold gravity_forces
  rw [foldl_gravity_push_length]
  simp

theorem visited_pairs_one : visited_pairs 1 = [] := by decide

theorem visited_pairs_two : visited_pairs 2 = [(0, 1)] := by decide

theorem gravity_forces_singleton (b : Body) : gravity_forces [b] = [[]] := by
  have h : ([b] : List Body).length = 1 := rfl
  unfold gravity_forces
  rw [h, visited_pairs_one]
  rfl

theorem gravity_forces_nil : gravity_forces [] = [] := rfl

/-- C1: for a single body with no propulsion and no other bodies, one
invocation of `kinimatics_system` does NOT complete: the accumulated
force list of the body is empty and `.expect("0 forces")` panics
(embedded as `none`), for every `dt` - the spec requires `acceleration =
0` and an unchanged position instead, so this is a defect of the code. -/
theorem C1_isolated_body_panics (kin : Kinimatics) (tran : Transform) (dt : ℝ) :
    kinimatics_system [(kin, tran, none)] dt = none := by
  unfold kinimatics_system
  rw [gravity_forces_singleton]
  simp [updateAll, updateBody, reduceAdd]

/-- C5: throttle semantics of the thrust-magnitude match in
`kinimatics_system`: `Fixed(true)` gives exactly `max_thrust`,
`Fixed(false)` gives zero, and `Variable(amount)` gives
`amount * max_thrust` for every real `amount` (linear extrapolation, no
clamping); in particular `Variable(0.0)` gives zero and `Variable(0.5)`
gives half of `max_thrust`. -/
theorem C5_throttle_semantics (t : Engine) :
    (t.throttle = Throttle.Fixed true → throttle_magnitude t = t.max_thrust) ∧
    (t.throttle = Throttle.Fixed false → throttle_magnitude t = 0) ∧
    (∀ amount : ℝ, t.throttle = Throttle.Variable amount →
      throttle_magnitude t = amount * t.max_thrust) ∧
    (t.throttle = Throttle.Variable 0 → throttle_magnitude t = 0) ∧
    (t.throttle = Throttle.Variable 0.5 → throttle_magnitude t = t.max_thrust / 2) := by
  refine ⟨fun h => by simp [throttle_magnitude, h],
    fun h => by simp [throttle_magnitude, h],
    fun a h => by simp [throttle_magnitude, h],
    fun h => by simp [throttle_magnitude, h],
    fun h => by simp [throttle_magnitude, h]; try ring⟩

/-- Witness for C5 at a concrete engine: a half throttle on a
1000-unit engine yields 500 units of thrust. -/
theorem C5_witness :
    throttle_magnitude ⟨0, 1000, Throttle.Variable 0.5⟩ = 1000 / 2 :=
  (C5_throttle_semantics ⟨0, 1000, Throttle.Variable 0.5⟩).2.2.2.2 rfl

/-- C2: each unordered pair of distinct bodies is visited exactly once by
the gravity loops (the pair `(i, j)` is in the visited list, the list is
duplicate-free, and it contains only pairs `a < b < n`), and for each
visited pair the force recorded on the second body is the exact negation
of the force recorded on the first. -/
theorem C2_newton_third_law (n i j : Nat) (hij : i < j) (hjn : j < n)
    (q o : Body) (hq : 0 < q.1.mass) (ho : 0 < o.1.mass)
    (hpos : q.2.1.translation ≠ o.2.1.translation) :
    ((i, j) ∈ visited_pairs n ∧ (visited_pairs n).Nodup) ∧
    (∀ p ∈ visited_pairs n, p.1 < p.2 ∧ p.2 < n) ∧
    gravD2 q o = (gravD1 q o).neg :=
  ⟨⟨(mem_visited_pairs n (i, j)).2 ⟨hij, hjn⟩, nodup_visited_pairs n⟩,
    fun p hp => (mem_visited_pairs n p).1 hp, gravD2_eq_neg q o⟩

/-- Witness for C2 at `n = 3`, pair `(0, 2)`, with the two concrete
scenario bodies. -/
theorem C2_witness :
    ((0, 2) ∈ visited_pairs 3 ∧ (visited_pairs 3).Nodup) ∧
    (∀ p ∈ visited_pairs 3, p.1 < p.2 ∧ p.2 < 3) ∧
    gravD2 scenarioA scenarioB = (gravD1 scenarioA scenarioB).neg := by
  refine C2_newton_third_law 3 0 2 (by decide) (by decide) scenarioA scenarioB
    (by norm_num [scenarioA]) (by norm_num [scenarioB]) ?_
  simp only [scenarioA, scenarioB, Vec3.mk.injEq]
  norm_num

theorem updateAll_length (dt : ℝ) (fss : List (List Vec3)) (bs out : List Body)
    (h : updateAll dt fss bs = some out) : out.length = bs.length := by
  induction fss generalizing bs out with
  | nil =>
    cases bs with
    | nil =>
      simp only [updateAll, Option.some.injEq] at h
      subst h
      rfl
    | cons b bs => simp [updateAll] at h
  | cons fs fss ih =>
    cases bs with
    | nil => simp [updateAll] at h
    | cons b bs =>
      unfold updateAll at h
      cases hb : updateBody dt fs b with
      | none => rw [hb] at h; simp at h
      | some b' =>
        cases hr : updateAll dt fss bs with
        | none => rw [hb, hr] at h; simp at h
        | some out' =>
          rw [hb, hr] at h
          simp only [Option.some.injEq] at h
          subst h
          simp [ih bs out' hr]

theorem updateAll_getD (dt : ℝ) (fss : List (List Vec3)) (bs out : List Body)
    (h : updateAll dt fss bs = some out) (i : Nat) (hi : i < bs.length) :
    updateBody dt (fss.getD i []) (bs.getD i default) = some (out.getD i default) := by
  induction fss generalizing bs out i with
  | nil =>
    cases bs with
    | nil => simp at hi
    | cons b bs => simp [updateAll] at h
  | cons fs fss ih =>
    cases bs with
    | nil => simp at hi
    | cons b bs =>
      unfold updateAll at h
      cases hb : updateBody dt fs b with
      | none => rw [hb] at h; simp at h
      | some b' =>
        cases hr : updateAll dt fss bs with
        | none => rw [hb, hr] at h; simp at h
        | some out' =>
          rw [hb, hr] at h
          simp only [Option.some.injEq] at h
          subst h
          cases i with
          | zero => simpa using hb
          | succ i =>
            simp only [List.getD_cons_succ]
            exact ih bs out' hr i (by simpa using hi)

theorem reduceAdd_eq_vecSum (l : List Vec3) (s : Vec3) (h : reduceAdd l = some s) :
    s = vecSum l := by
  cases l with
  | nil => simp [reduceAdd] at h
  | cons x xs =>
    simp only [reduceAdd, Option.some.injEq] at h
    subst h
    simp [vecSum, List.foldl_cons, Vec3.zero_add]

theorem vecSum_append_singleton (l : List Vec3) (v : Vec3) :
    vecSum (l ++ [v]) = (vecSum l).add v := by
  simp [vecSum, List.foldl_append]

/-- A successful `updateBody` changes only acceleration, velocity and
translation: mass, rotation, scale and the engine come through intact. -/
theorem updateBody_frame (dt : ℝ) (forces0 : List Vec3) (b b' : Body)
    (h : updateBody dt forces0 b = some b') :
    b'.1.mass = b.1.mass ∧ b'.2.1.rotation = b.2.1.rotation ∧
    b'.2.1.scale = b.2.1.scale ∧ b'.2.2 = b.2.2 := by
  unfold updateBody at h
  split at h <;> (try dsimp only [] at h) <;> split at h <;>
    first
    | exact Option.noConfusion h
    | (simp only [Option.some.injEq] at h; subst h; exact ⟨rfl, rfl, rfl, rfl⟩)

/-- A successful `updateBody` realizes one semi-implicit Euler step: the
new acceleration is the reduced total force (accumulated gravity plus the
thrust term) over the mass, the new velocity adds `acceleration * dt`,
and the new translation adds the ALREADY UPDATED `velocity * dt`. -/
theorem updateBody_spec (dt : ℝ) (forces0 : List Vec3) (b b' : Body)
    (h : updateBody dt forces0 b = some b') :
    b'.1.acceleration = ((vecSum forces0).add (thrust_of b)).sdiv b.1.mass ∧
    b'.1.velocity = b.1.velocity.add (b'.1.acceleration.smul dt) ∧
    b'.2.1.translation = b.2.1.translation.add (b'.1.velocity.smul dt) := by
  unfold updateBody at h
  rcases he : b.2.2 with _ | t <;> rw [he] at h <;> simp only at h
  · cases hr : reduceAdd forces0 with
    | none => rw [hr] at h; simp at h
    | some total =>
      rw [hr] at h
      simp only [Option.some.injEq] at h
      subst h
      refine ⟨?_, rfl, rfl⟩
      rw [reduceAdd_eq_vecSum forces0 total hr]
      simp only [thrust_of, he]
      rw [Vec3.add_zero]
  · cases hr : reduceAdd (forces0 ++ [(b.2.1.rotation.mul_vec3 Vec3.Y).smul
        (throttle_magnitude t)]) with
    | none => rw [hr] at h; simp at h
    | some total =>
      rw [hr] at h
      simp only [Option.some.injEq] at h
      subst h
      refine ⟨?_, rfl, rfl⟩
      rw [reduceAdd_eq_vecSum _ total hr, vecSum_append_singleton]
      simp only [thrust_of, he]

/-- C4: for every body of a successful live tick, the integrator applies
semi-implicit Euler in order: the acceleration is (sum of accumulated
gravity forces + thrust, zero thrust term when no propulsion) divided by
the mass, the velocity gains `acceleration * dt`, and the position gains
the updated `velocity * dt`. -/
theorem C4_symplectic_euler (bodies : List Body) (dt : ℝ) (out : List Body) (i : Nat)
    (h : kinimatics_system bodies dt = some out) (hi : i < bodies.length)
    (hm : 0 < (bodies.getD i default).1.mass) :
    (out.getD i default).1.acceleration =
      ((vecSum ((gravity_forces bodies).getD i [])).add
        (thrust_of (bodies.getD i default))).sdiv (bodies.getD i default).1.mass ∧
    (out.getD i default).1.velocity =
      (bodies.getD i default).1.velocity.add
        ((out.getD i default).1.acceleration.smul dt) ∧
    (out.getD i default).2.1.translation =
      (bodies.getD i default).2.1.translation.add
        ((out.getD i default).1.velocity.smul dt) :=
  updateBody_spec dt _ _ _ (updateAll_getD dt (gravity_forces bodies) bodies out h i hi)

/-- C10: one live tick writes only acceleration, velocity and
translation; for every body the mass, the rotation (and scale), and the
whole engine component (fuel, max_thrust, throttle) are unchanged, and no
body is created or destroyed. -/
theorem C10_kinimatics_frame (bodies : List Body) (dt : ℝ) (out : List Body)
    (h : kinimatics_system bodies dt = some out) :
    out.length = bodies.length ∧
    ∀ i, i < bodies.length →
      (out.getD i default).1.mass = (bodies.getD i default).1.mass ∧
      (out.getD i default).2.1.rotation = (bodies.getD i default).2.1.rotation ∧
      (out.getD i default).2.1.scale = (bodies.getD i default).2.1.scale ∧
      (out.getD i default).2.2 = (bodies.getD i default).2.2 :=
  ⟨updateAll_length dt _ _ _ h, fun i hi =>
    updateBody_frame dt _ _ _ (updateAll_getD dt (gravity_forces bodies) bodies out h i hi)⟩

/-- One live tick at any `dt` leaves the idle ship exactly in place: its
single accumulated force is the zero thrust vector, so acceleration,
velocity and position all stay put.  Used by the witnesses. -/
theorem kinimatics_idleShip (dt : ℝ) : kinimatics_system [idleShip] dt = some [idleShip] := by
  unfold kinimatics_system
  rw [gravity_forces_singleton]
  simp [updateAll, updateBody, idleShip, reduceAdd, throttle_magnitude, Quat.mul_vec3,
    Quat.IDENTITY, Vec3.Y, Vec3.dot, Vec3.cross, Vec3.smul, Vec3.add, Vec3.sdiv, Vec3.zero,
    Vec3.ONE]

/-- Witness for C4: the idle ship at `dt = 1` satisfies the three Euler
equations with concrete values. -/
theorem C4_witness :
    idleShip.1.acceleration =
      ((vecSum ((gravity_forces [idleShip]).getD 0 [])).add (thrust_of idleShip)).sdiv
        idleShip.1.mass ∧
    idleShip.1.velocity = idleShip.1.velocity.add (idleShip.1.acceleration.smul 1) ∧
    idleShip.2.1.translation =
      idleShip.2.1.translation.add (idleShip.1.velocity.smul 1) := by
  have h := C4_symplectic_euler [idleShip] 1 [idleShip] 0 (kinimatics_idleShip 1)
    (by norm_num) (by norm_num [idleShip])
  simpa using h

/-- Witness for C10: one tick on the idle ship preserves its mass,
rotation, scale and engine. -/
theorem C10_witness :
    (([idleShip] : List Body).getD 0 default).1.mass = 100 ∧
    (([idleShip] : List Body).getD 0 default).2.2 = some ⟨0, 1000, Throttle.Fixed false⟩ := by
  have h := C10_kinimatics_frame [idleShip] 1 [idleShip] (kinimatics_idleShip 1)
  obtain ⟨hm, -, -, he⟩ := h.2 0 (by norm_num)
  constructor
  · rw [hm]
    norm_num [idleShip]
  · rw [he]
    norm_num [idleShip]

theorem gravity_forces_scenario :
    gravity_forces [scenarioA, scenarioB] =
      [[gravD1 scenarioA scenarioB], [gravD2 scenarioA scenarioB]] := by
  have h : ([scenarioA, scenarioB] : List Body).length = 2 := rfl
  unfold gravity_forces
  rw [h, visited_pairs_two]
  simp [gravity_push, pushAt, List.foldl_cons, List.foldl_nil]

theorem gravD1_scenario : gravD1 scenarioA scenarioB = ⟨0, scenarioF, 0⟩ := by
  unfold gravD1 force_mag Vec3.normalize Vec3.length
  simp only [scenarioA, scenarioB]
  norm_num [Vec3.sub, Vec3.length_squared, Vec3.distance_squared, Vec3.smul]
  rw [show (40000 : ℝ) = 200 ^ 2 by norm_num, Real.sqrt_sq (by norm_num : (0 : ℝ) ≤ 200)]
  norm_num [GRAVITATIONAL_CONSTANT, scenarioF, Vec3.mk.injEq]

theorem gravD2_scenario : gravD2 scenarioA scenarioB = ⟨0, -scenarioF, 0⟩ := by
  rw [gravD2_eq_neg, gravD1_scenario]
  simp [Vec3.neg]

/-- C6: the per-pair force magnitude is
`G * mass_i * mass_j / distance_squared`, and on the concrete two-body
scenario (masses `8e15` at `(0, -100, 0)` and `(0, 100, 0)`) the gravity
accumulator records exactly `(0, 1.067888e17, 0)` on the first body
(pointing toward `+y`) and its negation on the second, where
`1.067888e17 = 6.67430e-11 * 8e15 * 8e15 / 200^2`. -/
theorem C6_gravity_magnitude :
    (∀ q o : Body, force_mag q o = GRAVITATIONAL_CONSTANT * (q.1.mass * o.1.mass) /
        Vec3.distance_squared q.2.1.translation o.2.1.translation) ∧
    gravity_forces [scenarioA, scenarioB] = [[⟨0, scenarioF, 0⟩], [⟨0, -scenarioF, 0⟩]] ∧
    scenarioF = 6.67430e-11 * 8e15 * 8e15 / 200 ^ 2 ∧ 0 < scenarioF := by
  refine ⟨fun q o => rfl, ?_, by norm_num [scenarioF], by norm_num [scenarioF]⟩
  rw [gravity_forces_scenario, gravD1_scenario, gravD2_scenario]

theorem Vec3.distance_squared_self (p : Vec3) : Vec3.distance_squared p p = 0 := by
  simp [Vec3.distance_squared, Vec3.sub, Vec3.length_squared]

/-- C8: the code has no policy for coincident bodies.  At distance zero
both the division by `distance_squared` and the normalization of the
zero difference vector are float-undefined (NaN/infinity), recorded here
as `none`; away from zero distance the checked computation agrees
exactly with the unchecked `gravD1` the systems use, showing there is no
floor, softening or skip anywhere. -/
theorem C8_coincident_singularity (k1 k2 : Kinimatics) (e1 e2 : Option Engine)
    (p : Vec3) (r1 r2 : Quat) (s1 s2 : Vec3) :
    gravD1_checked (k1, ⟨p, r1, s1⟩, e1) (k2, ⟨p, r2, s2⟩, e2) = none ∧
    gravD2_checked (k1, ⟨p, r1, s1⟩, e1) (k2, ⟨p, r2, s2⟩, e2) = none ∧
    ∀ q o : Body, q.2.1.translation ≠ o.2.1.translation →
      gravD1_checked q o = some (gravD1 q o) := by
  refine ⟨?_, ?_, ?_⟩
  · unfold gravD1_checked checked_div
    simp [Vec3.distance_squared_self]
  · unfold gravD2_checked checked_div
    simp [Vec3.distance_squared_self]
  · intro q o hne
    have hd : Vec3.distance_squared q.2.1.translation o.2.1.translation ≠ 0 := by
      rw [Vec3.distance_squared]
      intro hc
      exact hne ((Vec3.sub_eq_zero_iff _ _).1 ((Vec3.length_squared_eq_zero_iff _).1 hc))
    have hn : (o.2.1.translation.sub q.2.1.translation).length_squared ≠ 0 := by
      intro hc
      exact hne
        (((Vec3.sub_eq_zero_iff _ _).1 ((Vec3.length_squared_eq_zero_iff _).1 hc)).symm)
    unfold gravD1_checked checked_div checked_normalize
    rw [if_neg hd, if_neg hn]
    rfl

/-- Witness for C8: two bodies at the same point `(0,0,0)` hit the
undefined case, while the separated scenario bodies evaluate normally. -/
theorem C8_witness :
    gravD1_checked (⟨Vec3.zero, Vec3.zero, 8e15⟩, (⟨⟨0, 0, 0⟩, Quat.IDENTITY, Vec3.ONE⟩, none))
        (⟨Vec3.zero, Vec3.zero, 8e15⟩, (⟨⟨0, 0, 0⟩, Quat.IDENTITY, Vec3.ONE⟩, none)) = none ∧
    gravD1_checked scenarioA scenarioB = some (gravD1 scenarioA scenarioB) := by
  obtain ⟨h1, h2, h3⟩ := C8_coincident_singularity ⟨Vec3.zero, Vec3.zero, 8e15⟩
    ⟨Vec3.zero, Vec3.zero, 8e15⟩ none none ⟨0, 0, 0⟩ Quat.IDENTITY Quat.IDENTITY
    Vec3.ONE Vec3.ONE
  refine ⟨h1, h3 scenarioA scenarioB ?_⟩
  simp only [scenarioA, scenarioB, Vec3.mk.injEq]
  norm_num

theorem course_steps_succ (dt : ℝ) (n : Nat) (bodies bodies2 : List Body)
    (hk : kinimatics_system bodies dt = some bodies2) :
    course_steps dt (n + 1) bodies =
      match course_steps dt n bodies2 with
      | none => none
      | some r => some (r.1, bodies2.map (fun b => b.2.1) :: r.2) := by
  conv_lhs => unfold course_steps
  rw [hk]

theorem course_steps_shape (dt : ℝ) (n : Nat) (bodies bf : List Body)
    (stepss : List (List Transform))
    (h : course_steps dt n bodies = some (bf, stepss)) :
    stepss.length = n ∧ ∀ s ∈ stepss, s.length = bodies.length := by
  induction n generalizing bodies bf stepss with
  | zero =>
    simp only [course_steps, Option.some.injEq, Prod.mk.injEq] at h
    obtain ⟨-, h2⟩ := h
    subst h2
    simp
  | succ n ih =>
    cases hk : kinimatics_system bodies dt with
    | none =>
      unfold course_steps at h
      rw [hk] at h
      simp at h
    | some bodies2 =>
      rw [course_steps_succ dt n bodies bodies2 hk] at h
      cases hr : course_steps dt n bodies2 with
      | none => rw [hr] at h; simp at h
      | some r =>
        obtain ⟨bf2, snaps⟩ := r
        rw [hr] at h
        simp only [Option.some.injEq, Prod.mk.injEq] at h
        obtain ⟨h1, h2⟩ := h
        subst h2
        have hlen := updateAll_length dt (gravity_forces bodies) bodies bodies2 hk
        obtain ⟨ih1, ih2⟩ := ih bodies2 bf2 snaps hr
        constructor
        · simp [ih1]
        · intro s hs
          rcases List.mem_cons.1 hs with hs | hs
          · subst hs
            simp [hlen]
          · rw [ih2 s hs, hlen]

theorem flatten_length_uniform {α : Type} (L : List (List α)) (B : Nat)
    (h : ∀ s ∈ L, s.length = B) : L.flatten.length = L.length * B := by
  induction L with
  | nil => simp
  | cons x L ih =>
    simp only [List.flatten_cons, List.length_append, List.length_cons]
    rw [h x (by simp), ih (fun s hs => h s (by simp [hs]))]
    ring

theorem flatten_getD_uniform {α : Type} [Inhabited α] (L : List (List α)) (B : Nat)
    (h : ∀ s ∈ L, s.length = B) (s b : Nat) (hs : s < L.length) (hb : b < B) :
    L.flatten.getD (s * B + b) default = (L.getD s []).getD b default := by
  induction L generalizing s with
  | nil => simp at hs
  | cons x L ih =>
    have hx : x.length = B := h x (by simp)
    cases s with
    | zero =>
      simp only [List.flatten_cons, List.getD_cons_zero, Nat.zero_mul, Nat.zero_add]
      exact List.getD_append x L.flatten default b (by omega)
    | succ s =>
      have hkey : ∀ t : Nat, x.length ≤ t + B + b ∧ t + B + b - x.length = t + b := by
        intro t
        rw [hx]
        omega
      have hidx : (s + 1) * B + b = s * B + B + b := by ring
      simp only [List.flatten_cons, List.getD_cons_succ]
      rw [hidx, List.getD_append_right x L.flatten default (s * B + B + b) (hkey (s * B)).1,
        (hkey (s * B)).2]
      exact ih (fun t ht => h t (by simp [ht])) s (by simpa using hs)

theorem flatten_replicate_nil {α : Type} (n : Nat) :
    (List.replicate n ([] : List α)).flatten = [] := by
  induction n with
  | zero => rfl
  | succ n ih => simp [List.replicate_succ, ih]

theorem kinimatics_system_nil (dt : ℝ) : kinimatics_system [] dt = some [] := rfl

theorem course_steps_nil (dt : ℝ) (n : Nat) :
    course_steps dt n [] = some ([], List.replicate n []) := by
  induction n with
  | zero => rfl
  | succ n ih =>
    rw [course_steps_succ dt n [] [] (kinimatics_system_nil dt), ih]
    simp [List.replicate_succ]

/-- The whole projection system, rewritten past the look-ahead loop: once
the stepping result is known, what remains is the reconciliation counts,
the assignment loop (with its out-of-bounds panic guard) and the deferred
command application. -/
theorem course_projection_eq (w : World) (bf : List Body)
    (stepss : List (List Transform))
    (h : course_steps (1 / (step_precision : ℝ)) (num_seconds * step_precision) w.bodies
        = some (bf, stepss)) :
    course_projection_system w =
      if w.dots.length ≤ stepss.flatten.length then
        some ⟨w.bodies,
          (((List.range w.dots.length).map fun i => stepss.flatten.getD i default).drop
            (reconcile_counts w.dots.length (stepss.length * w.bodies.length)).1) ++
          List.replicate (reconcile_counts w.dots.length
            (stepss.length * w.bodies.length)).2 default⟩
      else none := by
  simp only [course_projection_system]
  rw [h]

theorem course_projection_nil : course_projection_system ⟨[], []⟩ = some ⟨[], []⟩ := by
  rw [course_projection_eq ⟨[], []⟩ [] (List.replicate (num_seconds * step_precision) [])
    (course_steps_nil _ _)]
  simp [reconcile_counts, flatten_replicate_nil]

theorem course_steps_idleShip (dt : ℝ) (n : Nat) :
    course_steps dt n [idleShip] = some ([idleShip], List.replicate n [idleShip.2.1]) := by
  induction n with
  | zero => rfl
  | succ n ih =>
    rw [course_steps_succ dt n [idleShip] [idleShip] (kinimatics_idleShip dt), ih]
    simp [List.replicate_succ]

/-- C3 counterexample: pool of two markers, zero live bodies, so the
required count is `N = 0 < M = 2` and the claim demands that exactly two
markers are destroyed, leaving the pool at exactly `N = 0`.  Instead the
same invocation panics in the assignment loop (`steps[0]` on the empty
flattened sequence, src/user_interface.rs line 254) before the deferred
despawn commands ever apply, so nothing is destroyed and the pool is
never reconciled: the system evaluates to `none`, refuting the claim as
stated. -/
theorem C3_counterexample :
    course_projection_system ⟨[], [default, default]⟩ = none := by
  rw [course_projection_eq ⟨[], [default, default]⟩ []
    (List.replicate (num_seconds * step_precision) []) (course_steps_nil _ _)]
  simp [flatten_replicate_nil]

/-- C3 (amended): a projection over `num_seconds * step_precision` steps
(5 * 10 in the code) on `B` bodies emits exactly
`num_seconds * step_precision * B` flattened positions, and the
reconciliation branch issues exactly `M - N` despawn commands when the
pool `M` exceeds the requirement `N`, exactly `N - M` spawn commands
when `M < N`, and none when `M = N`, so that `M - destroyed + created =
N`.  However the pool actually holds `N` markers afterwards only when
`M` does not exceed the emitted count: then the system completes and,
once the deferred commands apply, the pool has exactly `N` markers; when
`M` exceeds the emitted count the invocation panics in the assignment
loop before the commands apply and the pool is not reconciled. -/
theorem C3_point_count (w : World) (bf : List Body) (stepss : List (List Transform))
    (h : course_steps (1 / (step_precision : ℝ)) (num_seconds * step_precision) w.bodies
        = some (bf, stepss)) :
    stepss.flatten.length = num_seconds * step_precision * w.bodies.length ∧
    (∀ M N : Nat,
      (N < M → reconcile_counts M N = (M - N, 0)) ∧
      (M < N → reconcile_counts M N = (0, N - M)) ∧
      (M = N → reconcile_counts M N = (0, 0)) ∧
      M - (reconcile_counts M N).1 + (reconcile_counts M N).2 = N) ∧
    (w.dots.length ≤ stepss.flatten.length →
      ∃ out, course_projection_system w = some out ∧
        out.dots.length = num_seconds * step_precision * w.bodies.length) ∧
    (stepss.flatten.length < w.dots.length → course_projection_system w = none) := by
  obtain ⟨hlen, hmem⟩ := course_steps_shape _ _ _ _ _ h
  have hflat : stepss.flatten.length = stepss.length * w.bodies.length :=
    flatten_length_uniform stepss w.bodies.length hmem
  have harith : ∀ M N : Nat,
      (N < M → reconcile_counts M N = (M - N, 0)) ∧
      (M < N → reconcile_counts M N = (0, N - M)) ∧
      (M = N → reconcile_counts M N = (0, 0)) ∧
      M - (reconcile_counts M N).1 + (reconcile_counts M N).2 = N := by
    intro M N
    unfold reconcile_counts
    refine ⟨fun hMN => ?_, fun hMN => ?_, fun hMN => ?_, ?_⟩
    · rw [if_pos hMN]
    · rw [if_neg (by omega), if_pos hMN]
    · subst hMN
      rw [if_neg (by omega), if_neg (by omega)]
    · split_ifs <;> simp <;> omega
  refine ⟨by rw [hflat, hlen], harith, fun hM => ?_, fun hM => ?_⟩
  · rw [course_projection_eq w bf stepss h, if_pos hM]
    refine ⟨_, rfl, ?_⟩
    have hsum := (harith w.dots.length (stepss.length * w.bodies.length)).2.2.2
    dsimp only
    simp only [List.length_append, List.length_drop, List.length_map, List.length_range,
      List.length_replicate]
    rw [hsum, hlen]
  · rw [course_projection_eq w bf stepss h, if_neg (not_le.2 hM)]

/-- Witness for C3: the empty world emits zero positions, the three
reconciliation branches at concrete pool sizes, and a completing run
whose pool ends at exactly the emitted count. -/
theorem C3_witness :
    (List.replicate (num_seconds * step_precision) ([] : List Transform)).flatten.length
        = num_seconds * step_precision * ([] : List Body).length ∧
    reconcile_counts 7 2 = (5, 0) ∧ reconcile_counts 2 7 = (0, 5) ∧
    reconcile_counts 4 4 = (0, 0) ∧
    ∃ out, course_projection_system ⟨[], []⟩ = some out ∧ out.dots.length = 0 := by
  have h := C3_point_count ⟨[], []⟩ [] (List.replicate (num_seconds * step_precision) [])
    (course_steps_nil _ _)
  refine ⟨h.1, ?_, ?_, ?_, ?_⟩
  · simpa using (h.2.1 7 2).1 (by norm_num)
  · simpa using (h.2.1 2 7).2.1 (by norm_num)
  · simpa using (h.2.1 4 4).2.2.1 rfl
  · obtain ⟨out, ho, hl⟩ := h.2.2.1 (Nat.zero_le _)
    exact ⟨out, ho, by simpa using hl⟩

/-- C7: the trajectory projection never mutates the live body set - it
steps a clone made once at the start, and whenever the system completes
the live bodies of the resulting world are exactly the input bodies. -/
theorem C7_projection_purity (w out : World)
    (h : course_projection_system w = some out) : out.bodies = w.bodies := by
  cases hr : course_steps (1 / (step_precision : ℝ)) (num_seconds * step_precision) w.bodies with
  | none =>
    simp only [course_projection_system] at h
    rw [hr] at h
    simp at h
  | some r =>
    obtain ⟨bf, stepss⟩ := r
    rw [course_projection_eq w bf stepss hr] at h
    split at h
    · simp only [Option.some.injEq] at h
      subst h
      rfl
    · simp at h

/-- Witness for C7 on the empty world. -/
theorem C7_witness : (World.mk ([] : List Body) ([] : List Transform)).bodies = [] :=
  C7_projection_purity ⟨[], []⟩ ⟨[], []⟩ course_projection_nil

/-- C9 counterexample: with zero live bodies and one marker in the pool
(pool larger than the required zero dots), the system issues the despawn
but then the assignment loop indexes `steps[0]` on the empty flattened
sequence and panics (`none`): the markers are NOT each assigned an
emitted position, so the claim fails as stated. -/
theorem C9_counterexample :
    course_projection_system ⟨[], [default]⟩ = none := by
  rw [course_projection_eq ⟨[], [default]⟩ []
    (List.replicate (num_seconds * step_precision) []) (course_steps_nil _ _)]
  simp [flatten_replicate_nil]

/-- C9 (amended): the flattened output is in fixed step-major order (the
position of body `b` after step `s` sits at flat index
`s * B + b`); when the marker pool is not larger than the emitted
sequence the system completes, the `i`-th marker present at invocation
start is assigned emitted position `i`, and markers created by this
invocation carry the default transform (they are only assigned on a
later invocation); when the pool is larger than the emitted sequence the
assignment loop indexes out of bounds and the system panics instead of
completing the reconciliation. -/
theorem C9_order_and_assignment (w : World) (bf : List Body)
    (stepss : List (List Transform))
    (h : course_steps (1 / (step_precision : ℝ)) (num_seconds * step_precision) w.bodies
        = some (bf, stepss)) :
    (∀ s b : Nat, s < stepss.length → b < w.bodies.length →
      stepss.flatten.getD (s * w.bodies.length + b) default
        = (stepss.getD s []).getD b default) ∧
    (w.dots.length ≤ stepss.flatten.length →
      course_projection_system w = some ⟨w.bodies,
        ((List.range w.dots.length).map fun i => stepss.flatten.getD i default) ++
          List.replicate (stepss.length * w.bodies.length - w.dots.length) default⟩) ∧
    (stepss.flatten.length < w.dots.length → course_projection_system w = none) := by
  obtain ⟨hlen, hmem⟩ := course_steps_shape _ _ _ _ _ h
  have hflat : stepss.flatten.length = stepss.length * w.bodies.length :=
    flatten_length_uniform stepss w.bodies.length hmem
  have hrc : ∀ N : Nat, w.dots.length ≤ N →
      reconcile_counts w.dots.length N = (0, N - w.dots.length) := by
    intro N hMN
    unfold reconcile_counts
    rcases Nat.lt_or_ge w.dots.length N with hlt | hge
    · rw [if_neg (by omega), if_pos hlt]
    · have heq : w.dots.length = N := le_antisymm hMN hge
      subst heq
      rw [if_neg (by omega), if_neg (by omega)]
      simp
  refine ⟨fun s b hs hb => flatten_getD_uniform stepss w.bodies.length hmem s b hs hb,
    fun hM => ?_, fun hM => ?_⟩
  · rw [course_projection_eq w bf stepss h, if_pos hM,
      hrc (stepss.length * w.bodies.length) (by rw [← hflat]; exact hM)]
    simp
  · rw [course_projection_eq w bf stepss h, if_neg (not_le.2 hM)]

/-- Witness for C9: one idle ship and an empty pool; the system completes
and the fifty created markers all carry the default transform, not yet an
emitted position. -/
theorem C9_witness :
    course_projection_system ⟨[idleShip], []⟩ =
      some ⟨[idleShip], List.replicate (num_seconds * step_precision) default⟩ := by
  have h := (C9_order_and_assignment ⟨[idleShip], []⟩ [idleShip]
    (List.replicate (num_seconds * step_precision) [idleShip.2.1])
    (course_steps_idleShip _ _)).2.1 (Nat.zero_le _)
  simpa using h

end Staws
